import Mathlib

/- Verification of the UBL e-invoice parser (edi_invoice/parser.py).
   The element tree, the Python dict/list values, and every handler of
   InvoiceParser / CreditNoteParser are embedded as executable Lean
   definitions; fallible operations (attribute indexing, `.get` on a
   non-dict value, `.strip()` on None) return `Except String`. -/

set_option maxRecDepth 100000
set_option maxHeartbeats 2000000

namespace EdiInvoice

/-- Python runtime value as the parser uses it: None, str (bytes are also
modelled as the string of their characters), dict with string keys, list. -/
inductive Val where
  | vnone : Val
  | vstr : String → Val
  | vdict : List (String × Val) → Val
  | vlist : List Val → Val

/-- XML element node (xml.etree.ElementTree.Element): qualified tag,
attributes, optional text, ordered children. -/
inductive Elem where
  | mk : String → List (String × String) → Option String → List Elem → Elem

def Elem.tag : Elem → String
  | .mk t _ _ _ => t

def Elem.attrib : Elem → List (String × String)
  | .mk _ a _ _ => a

def Elem.text : Elem → Option String
  | .mk _ _ tx _ => tx

def Elem.children : Elem → List Elem
  | .mk _ _ _ cs => cs

/-- Python dict assignment `d[k] = v`: replaces the binding in place,
or appends a new one (insertion order preserved, as CPython does). -/
def dset : List (String × Val) → String → Val → List (String × Val)
  | [], k, v => [(k, v)]
  | (k0, v0) :: rest, k, v =>
    if k0 = k then (k, v) :: rest else (k0, v0) :: dset rest k v

/-- Key lookup in a dict (first binding wins; `dset` keeps keys unique). -/
def dlookup : List (String × Val) → String → Option Val
  | [], _ => none
  | (k0, v) :: rest, k => if k0 = k then some v else dlookup rest k

/-- Python `d.get(k, dflt)` on a value that is statically a dict. -/
def dgetD (d : List (String × Val)) (k : String) (dflt : Val) : Val :=
  match dlookup d k with
  | some v => v
  | none => dflt

/-- Python `v.get(k, dflt)` on an arbitrary value: AttributeError unless
`v` is a dict. -/
def Val.pyGetD : Val → String → Val → Except String Val
  | .vdict d, k, dflt => .ok (dgetD d k dflt)
  | _, _, _ => .error "AttributeError"

/-- Python `v.get(k)` (default None). -/
def Val.pyGet (v : Val) (k : String) : Except String Val :=
  v.pyGetD k .vnone

/-- Python truthiness of the values the parser tests with `if not x`. -/
def Val.truthy : Val → Bool
  | .vnone => false
  | .vstr s => !(s == "")
  | .vdict d => !d.isEmpty
  | .vlist l => !l.isEmpty

/-- Element text as a Python value (None or str). -/
def optV : Option String → Val
  | none => .vnone
  | some s => .vstr s

/-- `child.attrib[k]`: KeyError when the attribute is missing. -/
def attrGet (e : Elem) (k : String) : Except String String :=
  match e.attrib.lookup k with
  | some v => .ok v
  | none => .error "KeyError"

/-- Short-circuiting fold in the Except monad (the parser loops). -/
def exFold (f : α → Elem → Except String α) : α → List Elem → Except String α
  | a, [] => .ok a
  | a, c :: cs =>
    match f a c with
    | .error e => .error e
    | .ok a2 => exFold f a2 cs

/-- The four namespace URIs stripped by InvoiceParser.ns_filter. -/
def ns_filter : List String :=
  [ "\x7burn:oasis:names:specification:ubl:schema:xsd:CommonExtensionComponents-2\x7d",
    "\x7burn:oasis:names:specification:ubl:schema:xsd:CommonBasicComponents-2\x7d",
    "\x7burn:oasis:names:specification:ubl:schema:xsd:CommonAggregateComponents-2\x7d",
    "\x7burn:oasis:names:specification:ubl:schema:xsd:Invoice-2\x7d" ]

/-- One pass of Python `s.replace(pat, "")`: scan left to right, delete
each non-overlapping occurrence, continue after the deleted region.
Fuel-structural so the kernel can evaluate it; fuel `s.length` suffices
because every step consumes at least one character. -/
def strDeleteAux (pat : List Char) : Nat → List Char → List Char
  | 0, s => s
  | _ + 1, [] => []
  | fuel + 1, c :: rest =>
    if pat.isPrefixOf (c :: rest) && !pat.isEmpty then
      strDeleteAux pat fuel (List.drop (pat.length - 1) rest)
    else
      c :: strDeleteAux pat fuel rest

/-- Python `s.replace(pat, "")`. -/
def pyReplaceEmpty (s pat : String) : String :=
  ⟨strDeleteAux pat.data s.data.length s.data⟩

/-- InvoiceParser.prettify_tag: strip the four namespace URIs. -/
def prettify_tag (tag : String) : String :=
  ns_filter.foldl (fun t ns => pyReplaceEmpty t ns) tag

/-- Characters Python `str.strip()` / `lstrip()` remove (ASCII whitespace). -/
def isPyWs (c : Char) : Bool :=
  c == ' ' || c == '\t' || c == '\n' || c == '\r' || c == '\x0b' || c == '\x0c'

/-- Python `s.lstrip()`. -/
def pyLstrip (s : String) : String :=
  ⟨s.data.dropWhile isPyWs⟩

/-- Python `s.strip()`. -/
def pyStrip (s : String) : String :=
  ⟨((s.data.dropWhile isPyWs).reverse.dropWhile isPyWs).reverse⟩

/-- Generic one-level flatten: `for e in x: d[prettify(e.tag)] = e.text`. -/
def flattenChildren (x : Elem) : List (String × Val) :=
  x.children.foldl (fun d e => dset d (prettify_tag e.tag) (optV e.text)) []

/-- InvoiceParser._parseInvoiceLineItem. -/
def parseInvoiceLineItem (x : Elem) : List (String × Val) :=
  x.children.foldl (fun item_data sub =>
    let tag := prettify_tag sub.tag
    if tag = "SellersItemIdentification" then
      sub.children.foldl
        (fun d child => dset d (prettify_tag child.tag) (optV child.text)) item_data
    else if tag = "ClassifiedTaxCategory" then
      let tax_dict := sub.children.foldl (fun td child =>
        let ctag := prettify_tag child.tag
        if ctag = "TaxScheme" then
          dset td "TaxScheme" (.vdict (flattenChildren child))
        else
          dset td ctag (optV child.text)) []
      dset item_data "ClassifiedTaxCategory" (.vdict tax_dict)
    else
      dset item_data tag (optV sub.text)) []

/-- One child of InvoiceParser.parseInvoiceLine (Invoice variant). -/
def parseInvoiceLineStep (d : List (String × Val)) (child : Elem) :
    Except String (List (String × Val)) :=
  if prettify_tag child.tag = "Item" then
    .ok (dset d "Items" (.vdict (parseInvoiceLineItem child)))
  else if prettify_tag child.tag = "Price" then
    .ok (dset d "Price" (.vdict (flattenChildren child)))
  else if prettify_tag child.tag = "InvoicedQuantity" then
    match attrGet child "unitCode" with
    | .error e => .error e
    | .ok uc => .ok (dset (dset d "InvoicedQuantity" (optV child.text)) "unitCode" (.vstr uc))
  else if prettify_tag child.tag = "LineExtensionAmount" then
    match attrGet child "currencyID" with
    | .error e => .error e
    | .ok cid => .ok (dset (dset d "LineExtensionAmount" (optV child.text)) "currencyID" (.vstr cid))
  else if prettify_tag child.tag = "TaxTotal" then
    .ok (child.children.foldl (fun d2 sub =>
      let pt := prettify_tag sub.tag
      let d3 := if pt = "TaxAmount" then dset d2 "TaxAmount" (optV sub.text) else d2
      if pt = "TaxSubtotal" then
        sub.children.foldl (fun d4 third =>
          if prettify_tag third.tag = "TaxCategory" then
            third.children.foldl (fun d5 fourth =>
              let ft := prettify_tag fourth.tag
              let d6 := if ft = "ID" then dset d5 "TaxID" (optV fourth.text) else d5
              let d7 := if ft = "Percent" then dset d6 "TaxPercent" (optV fourth.text) else d6
              if ft = "TaxExemptionReason" then
                dset d7 "TaxExemptionReason" (optV fourth.text)
              else d7) d4
          else d4) d3
      else d3) d)
  else
    .ok (dset d (prettify_tag child.tag) (optV child.text))

/-- InvoiceParser.parseInvoiceLine. -/
def parseInvoiceLine (x : Elem) : Except String (List (String × Val)) :=
  exFold parseInvoiceLineStep [] x.children

/-- One child of CreditNoteParser.parseInvoiceLine (CreditNote variant):
CreditedQuantity feeds the InvoicedQuantity field; no TaxTotal unpacking. -/
def parseCreditLineStep (d : List (String × Val)) (child : Elem) :
    Except String (List (String × Val)) :=
  if prettify_tag child.tag = "Item" then
    .ok (dset d "Items" (.vdict (parseInvoiceLineItem child)))
  else if prettify_tag child.tag = "Price" then
    .ok (dset d "Price" (.vdict (flattenChildren child)))
  else if prettify_tag child.tag = "CreditedQuantity" then
    match attrGet child "unitCode" with
    | .error e => .error e
    | .ok uc => .ok (dset (dset d "InvoicedQuantity" (optV child.text)) "unitCode" (.vstr uc))
  else if prettify_tag child.tag = "LineExtensionAmount" then
    match attrGet child "currencyID" with
    | .error e => .error e
    | .ok cid => .ok (dset (dset d "LineExtensionAmount" (optV child.text)) "currencyID" (.vstr cid))
  else
    .ok (dset d (prettify_tag child.tag) (optV child.text))

/-- CreditNoteParser.parseInvoiceLine. -/
def parseCreditLine (x : Elem) : Except String (List (String × Val)) :=
  exFold parseCreditLineStep [] x.children

/-- InvoiceParser.parseLegalMonetaryTotal. -/
def parseLegalMonetaryTotal (x : Elem) : List (String × Val) :=
  flattenChildren x

/-- InvoiceParser.parseInvoicePeriod. -/
def parseInvoicePeriod (x : Elem) : List (String × Val) :=
  flattenChildren x

/-- InvoiceParser.parseTaxTotal. -/
def parseTaxTotal (x : Elem) : List (String × Val) :=
  x.children.foldl (fun tt elem =>
    let tag := prettify_tag elem.tag
    if tag = "TaxSubtotal" then
      let ts := elem.children.foldl (fun tsd child =>
        let ctag := prettify_tag child.tag
        if ctag = "TaxCategory" then
          let cat := child.children.foldl (fun cd sub =>
            let stag := prettify_tag sub.tag
            let cd1 := dset cd stag (optV sub.text)
            if stag = "TaxScheme" then
              dset cd1 "TaxScheme" (.vdict (flattenChildren sub))
            else cd1) []
          dset tsd "TaxCategory" (.vdict cat)
        else
          dset tsd ctag (optV child.text)) []
      dset tt "TaxSubtotal" (.vdict ts)
    else
      dset tt tag (optV elem.text)) []

/-- InvoiceParser.parsePaymentMeans. -/
def parsePaymentMeans (x : Elem) : List (String × Val) :=
  x.children.foldl (fun pm elem =>
    let tag := prettify_tag elem.tag
    if tag = "PayeeFinancialAccount" then
      let fa := elem.children.foldl (fun fad child =>
        let ctag := prettify_tag child.tag
        if ctag = "FinancialInstitutionBranch" then
          dset fad "FinancialInstitutionBranch" (.vdict (flattenChildren child))
        else
          dset fad ctag (optV child.text)) []
      dset pm "PayeeFinancialAccount" (.vdict fa)
    else
      dset pm tag (optV elem.text)) []

/-- The four tags flattened one level inside a Party wrapper. -/
def single_child_tags : List String :=
  ["PartyIdentification", "PartyName", "PartyLegalEntity", "Contact"]

/-- InvoiceParser.parseAccountingParty (supplier or customer block). -/
def parseAccountingParty (x : Elem) : List (String × Val) :=
  x.children.foldl (fun party elem =>
    if prettify_tag elem.tag = "Party" then
      elem.children.foldl (fun pd sub =>
        let stag := prettify_tag sub.tag
        if single_child_tags.contains stag then
          dset pd stag (.vdict (flattenChildren sub))
        else if stag = "PostalAddress" then
          let addr := sub.children.foldl (fun ad child =>
            let ctag := prettify_tag child.tag
            if ctag = "Country" then
              dset ad "Country" (.vdict (flattenChildren child))
            else
              dset ad ctag (optV child.text)) []
          dset pd "PostalAddress" (.vdict addr)
        else if stag = "PartyTaxScheme" then
          let pt := sub.children.foldl (fun td child =>
            let ctag := prettify_tag child.tag
            if ctag = "TaxScheme" then
              dset td "TaxScheme" (.vdict (flattenChildren child))
            else
              dset td ctag (optV child.text)) []
          dset pd "PartyTaxScheme" (.vdict pt)
        else
          dset pd stag (optV sub.text)) party
    else party) []

/-- UTF-8 encoding of one code point. -/
def utf8Char (n : Nat) : List Nat :=
  if n < 128 then [n]
  else if n < 2048 then [192 + n / 64, 128 + n % 64]
  else if n < 65536 then [224 + n / 4096, 128 + (n / 64) % 64, 128 + n % 64]
  else [240 + n / 262144, 128 + (n / 4096) % 64, 128 + (n / 64) % 64, 128 + n % 64]

/-- Python `s.encode('utf-8')` as a byte list. -/
def utf8Bytes (s : String) : List Nat :=
  s.data.foldr (fun c acc => utf8Char c.toNat ++ acc) []

/-- The base64 alphabet. -/
def b64Alphabet : List Char :=
  "ABCDEFGHIJKLMNOPQRSTUVWXYZabcdefghijklmnopqrstuvwxyz0123456789+/".data

def b64char (n : Nat) : Char :=
  b64Alphabet.getD n 'A'

/-- Python `base64.b64encode` over a byte list, result as the string of
the base64 characters. -/
def b64encode : List Nat → String
  | [] => ""
  | [a] =>
    ⟨[b64char (a / 4), b64char (a % 4 * 16), '=', '=']⟩
  | [a, b] =>
    ⟨[b64char (a / 4), b64char (a % 4 * 16 + b / 16), b64char (b % 16 * 4), '=']⟩
  | a :: b :: c :: rest =>
    (⟨[b64char (a / 4), b64char (a % 4 * 16 + b / 16),
       b64char (b % 16 * 4 + c / 64), b64char (c % 64)]⟩ : String) ++ b64encode rest

/-- InvoiceParser.parsePdfDocument, inner loop over an Attachment child:
the accumulator is the b64-encoded text of the last embedded binary
object seen so far ("" before any); `child.text.strip()` raises
AttributeError when the text is None. -/
def pdfEmbedStep (acc : String) (child : Elem) : Except String String :=
  if prettify_tag child.tag = "EmbeddedDocumentBinaryObject" then
    match child.text with
    | none => .error "AttributeError"
    | some t => .ok (b64encode (utf8Bytes (pyStrip t)))
  else .ok acc

/-- InvoiceParser.parsePdfDocument, outer loop step. -/
def parsePdfStep (acc : String) (elem : Elem) : Except String String :=
  if prettify_tag elem.tag = "Attachment" then exFold pdfEmbedStep acc elem.children
  else .ok acc

def parsePdfDocument (x : Elem) : Except String Val :=
  match exFold parsePdfStep "" x.children with
  | .error e => .error e
  | .ok pdf => if pdf = "" then .ok .vnone else .ok (.vstr pdf)

/-- The last embedded-binary-object grandchild (inside an Attachment
child), the one whose encoding survives the overwriting loop. -/
def lastEmbOfAttachment : List Elem → Option Elem
  | [] => none
  | m :: ms =>
    match lastEmbOfAttachment ms with
    | some r => some r
    | none =>
      if prettify_tag m.tag = "EmbeddedDocumentBinaryObject" then some m else none

def lastEmbedIn : List Elem → Option Elem
  | [] => none
  | c :: cs =>
    match lastEmbedIn cs with
    | some r => some r
    | none =>
      if prettify_tag c.tag = "Attachment" then lastEmbOfAttachment c.children else none

/-- The attachment value the spec describes (amended per C8): the base64
encoding of the UTF-8 bytes of the embedded object's whitespace-stripped
text; None when there is no embedded object, and also None when the
stripped text is empty. -/
def pdfExpected (x : Elem) : Val :=
  match lastEmbedIn x.children with
  | none => .vnone
  | some m =>
    let b := b64encode (utf8Bytes (pyStrip (m.text.getD "")))
    if b = "" then .vnone else .vstr b

/-- InvoiceParser._parse_payment_id on the raw PaymentID value: model is
the first 4 characters, reference the rest with leading whitespace
removed; None yields (None, None); any other value would be sliced,
a TypeError. -/
def parse_payment_id : Val → Except String (Val × Val)
  | .vnone => .ok (.vnone, .vnone)
  | .vstr s => .ok (.vstr ⟨s.data.take 4⟩, .vstr ⟨(s.data.drop 4).dropWhile isPyWs⟩)
  | _ => .error "TypeError"

/-- The accumulator Run pre-seeds before walking the children. -/
def initSol : List (String × Val) :=
  [("Note", .vstr ""), ("InvoiceLines", .vlist []),
   ("AccountingSupplierParty", .vlist []), ("AccountingCustomerParty", .vlist [])]

/-- `sol["InvoiceLines"].append(line)`: AttributeError unless the current
value is a list (it is pre-seeded, but a top-level leaf child whose bare
tag is "InvoiceLines" could have overwritten it with its text). -/
def appendLine (sol : List (String × Val)) (line : Val) :
    Except String (List (String × Val)) :=
  match dlookup sol "InvoiceLines" with
  | some (.vlist l) => .ok (dset sol "InvoiceLines" (.vlist (l ++ [line])))
  | _ => .error "AttributeError"

/-- One child of Run, shared by the two walker variants, which differ
only in the tag that introduces a line item and in its line parser. -/
def runStepWith (lineTag : String)
    (parseLine : Elem → Except String (List (String × Val)))
    (sol : List (String × Val)) (elem : Elem) :
    Except String (List (String × Val)) :=
  if prettify_tag elem.tag = "UBLExtensions" then .ok sol
  else if prettify_tag elem.tag = lineTag then
    match parseLine elem with
    | .error e => .error e
    | .ok line => appendLine sol (.vdict line)
  else if prettify_tag elem.tag = "LegalMonetaryTotal" then
    .ok (dset sol "LegalMonetaryTotal" (.vdict (parseLegalMonetaryTotal elem)))
  else if prettify_tag elem.tag = "TaxTotal" then
    .ok (dset sol "TaxTotal" (.vdict (parseTaxTotal elem)))
  else if prettify_tag elem.tag = "PaymentMeans" then
    .ok (dset sol "PaymentMeans" (.vdict (parsePaymentMeans elem)))
  else if prettify_tag elem.tag = "AccountingSupplierParty" then
    .ok (dset sol "AccountingSupplierParty" (.vdict (parseAccountingParty elem)))
  else if prettify_tag elem.tag = "AccountingCustomerParty" then
    .ok (dset sol "AccountingCustomerParty" (.vdict (parseAccountingParty elem)))
  else if prettify_tag elem.tag = "InvoicePeriod" then
    .ok (dset sol "InvoicePeriod" (.vdict (parseInvoicePeriod elem)))
  else if prettify_tag elem.tag = "AdditionalDocumentReference" then
    match parsePdfDocument elem with
    | .error e => .error e
    | .ok pdf => .ok (dset sol "PdfDocument" pdf)
  else if prettify_tag elem.tag = "Note" then
    match elem.text with
    | none => .ok sol
    | some t =>
      -- sol["Note"] is pre-seeded and only ever written as a string here
      if (dgetD sol "Note" .vnone).truthy then
        match dgetD sol "Note" .vnone with
        | .vstr c => .ok (dset sol "Note" (.vstr (c ++ "\n" ++ t)))
        | _ => .error "TypeError"
      else .ok (dset sol "Note" (.vstr t))
  else
    .ok (dset sol (prettify_tag elem.tag) (optV elem.text))

/-- InvoiceParser.Run, accumulation phase. -/
def runRawInvoice (root : Elem) : Except String (List (String × Val)) :=
  exFold (runStepWith "InvoiceLine" parseInvoiceLine) initSol root.children

/-- CreditNoteParser.Run, accumulation phase. -/
def runRawCredit (root : Elem) : Except String (List (String × Val)) :=
  exFold (runStepWith "CreditNoteLine" parseCreditLine) initSol root.children

/-- `result.get(k1, {}).get(k2)`. -/
def g2 (result : List (String × Val)) (k1 k2 : String) : Except String Val :=
  (dgetD result k1 (.vdict [])).pyGet k2

/-- `result.get(k1, {}).get(k2, {}).get(k3)`. -/
def g3 (result : List (String × Val)) (k1 k2 k3 : String) : Except String Val :=
  match (dgetD result k1 (.vdict [])).pyGetD k2 (.vdict []) with
  | .error e => .error e
  | .ok v => v.pyGet k3

/-- `result.get(k1, {}).get(k2, {}).get(k3, {}).get(k4)`. -/
def g4 (result : List (String × Val)) (k1 k2 k3 k4 : String) : Except String Val :=
  match (dgetD result k1 (.vdict [])).pyGetD k2 (.vdict []) with
  | .error e => .error e
  | .ok v =>
    match v.pyGetD k3 (.vdict []) with
    | .error e => .error e
    | .ok w => w.pyGet k4

/-- The supplier dict of _post_process_result_dict. -/
def postSupplier (result : List (String × Val)) : Except String (List (String × Val)) := do
  let eid ← g2 result "AccountingSupplierParty" "EndpointID"
  let ident ← g3 result "AccountingSupplierParty" "PartyIdentification" "ID"
  let nm ← g3 result "AccountingSupplierParty" "PartyName" "Name"
  let street ← g3 result "AccountingSupplierParty" "PostalAddress" "StreetName"
  let city ← g3 result "AccountingSupplierParty" "PostalAddress" "CityName"
  let zip ← g3 result "AccountingSupplierParty" "PostalAddress" "PostalZone"
  let country ← g4 result "AccountingSupplierParty" "PostalAddress" "Country" "IdentificationCode"
  let cid ← g3 result "AccountingSupplierParty" "PartyTaxScheme" "CompanyID"
  let tsc ← g4 result "AccountingSupplierParty" "PartyTaxScheme" "TaxScheme" "ID"
  let reg ← g3 result "AccountingSupplierParty" "PartyLegalEntity" "RegistrationName"
  let tel ← g3 result "AccountingSupplierParty" "Contact" "Telephone"
  let mail ← g3 result "AccountingSupplierParty" "Contact" "ElectronicMail"
  .ok [("edi_supplier_id", eid), ("edi_supplier_identificator", ident),
       ("edi_supplier_name", nm), ("edi_supplier_street", street),
       ("edi_supplier_city", city), ("edi_supplier_postal_code", zip),
       ("edi_supplier_country_code", country), ("edi_supplier_company_id", cid),
       ("edi_supplier_tax_scheme_code", tsc), ("edi_supplier_registration_name", reg),
       ("edi_supplier_telephone", tel), ("edi_supplier_email", mail)]

/-- The customer dict of _post_process_result_dict. -/
def postCustomer (result : List (String × Val)) : Except String (List (String × Val)) := do
  let eid ← g2 result "AccountingCustomerParty" "EndpointID"
  let ident ← g3 result "AccountingCustomerParty" "PartyIdentification" "ID"
  let nm ← g3 result "AccountingCustomerParty" "PartyName" "Name"
  let street ← g3 result "AccountingCustomerParty" "PostalAddress" "StreetName"
  let city ← g3 result "AccountingCustomerParty" "PostalAddress" "CityName"
  let zip ← g3 result "AccountingCustomerParty" "PostalAddress" "PostalZone"
  let country ← g4 result "AccountingCustomerParty" "PostalAddress" "Country" "IdentificationCode"
  let cid ← g3 result "AccountingCustomerParty" "PartyTaxScheme" "CompanyID"
  let tsc ← g4 result "AccountingCustomerParty" "PartyTaxScheme" "TaxScheme" "ID"
  let reg ← g3 result "AccountingCustomerParty" "PartyLegalEntity" "RegistrationName"
  let tel ← g3 result "AccountingCustomerParty" "Contact" "Telephone"
  let mail ← g3 result "AccountingCustomerParty" "Contact" "ElectronicMail"
  .ok [("edi_customer_id", eid), ("edi_customer_identificator", ident),
       ("edi_customer_name", nm), ("edi_customer_street", street),
       ("edi_customer_city", city), ("edi_customer_postal_code", zip),
       ("edi_customer_country_code", country), ("edi_customer_company_id", cid),
       ("edi_customer_tax_scheme_code", tsc), ("edi_customer_registration_name", reg),
       ("edi_customer_telephone", tel), ("edi_customer_email", mail)]

/-- The payment-id split plus invoice_header dict of
_post_process_result_dict. -/
def postHeader (result : List (String × Val)) : Except String (List (String × Val)) := do
  let pid ← g2 result "PaymentMeans" "PaymentID"
  let pmr ← parse_payment_id pid
  let tax_amount ← g2 result "TaxTotal" "TaxAmount"
  let tax_percent ← g4 result "TaxTotal" "TaxSubtotal" "TaxCategory" "Percent"
  let tax_exemption ← g4 result "TaxTotal" "TaxSubtotal" "TaxCategory" "TaxExemptionReason"
  let taxable ← g3 result "TaxTotal" "TaxSubtotal" "TaxableAmount"
  let iban ← g3 result "PaymentMeans" "PayeeFinancialAccount" "ID"
  let instr ← g2 result "PaymentMeans" "InstructionNote"
  let pmc ← g2 result "PaymentMeans" "PaymentMeansCode"
  let pid2 ← g2 result "PaymentMeans" "PaymentID"
  let payable ← g2 result "LegalMonetaryTotal" "PayableAmount"
  .ok [("document_reference", dgetD result "InvoiceDocumentReference" .vnone),
       ("currency", dgetD result "TaxCurrencyCode" .vnone),
       ("due_date", dgetD result "DueDate" .vnone),
       ("customization_id", dgetD result "CustomizationID" .vnone),
       ("edi_supplier_invoice_id", dgetD result "ID" .vnone),
       ("tax_amount", tax_amount), ("tax_percent", tax_percent),
       ("tax_exemption_reason", tax_exemption), ("taxable_amount", taxable),
       ("iban", iban), ("instruction_note", instr),
       ("payment_means_code", pmc), ("payment_id", pid2),
       ("payable_amount", payable),
       ("payment_model", pmr.1), ("payment_reference", pmr.2)]

/-- One entry of _flatten_invoice_lines: the per-field item-level /
line-level tax fallback, then the flat line record. -/
def flattenLine (i : Val) : Except String Val := do
  let items ← i.pyGetD "Items" (.vdict [])
  let ctc ← items.pyGetD "ClassifiedTaxCategory" (.vdict [])
  let tax_id0 ← ctc.pyGet "ID"
  let tax_id ← if tax_id0.truthy then pure tax_id0 else i.pyGet "TaxID"
  let tax_percent0 ← ctc.pyGet "Percent"
  let tax_percent ← if tax_percent0.truthy then pure tax_percent0 else i.pyGet "TaxPercent"
  let tax_exempt0 ← ctc.pyGet "TaxExemptionReason"
  let tax_exempt ← if tax_exempt0.truthy then pure tax_exempt0 else i.pyGet "TaxExemptionReason"
  let lid ← i.pyGet "ID"
  let nm ← items.pyGet "Name"
  let desc ← items.pyGet "Description"
  let qty ← i.pyGet "InvoicedQuantity"
  let amt ← i.pyGet "LineExtensionAmount"
  let priceD ← i.pyGetD "Price" (.vdict [])
  let price ← priceD.pyGet "PriceAmount"
  let tsD ← ctc.pyGetD "TaxScheme" (.vdict [])
  let scheme ← tsD.pyGet "ID"
  .ok (.vdict [("edi_line_id", lid), ("edi_line_name", nm),
       ("edi_line_description", desc), ("invoiced_quantity", qty),
       ("invoiced_amount", amt), ("single_unit_price", price),
       ("tax_category_id", tax_id), ("tax_percent", tax_percent),
       ("tax_exemption_reason", tax_exempt), ("tax_scheme_code", scheme)])

/-- Map flattenLine over the accumulated lines. -/
def flattenAll : List Val → Except String (List Val)
  | [] => .ok []
  | v :: vs =>
    match flattenLine v with
    | .error e => .error e
    | .ok r =>
      match flattenAll vs with
      | .error e => .error e
      | .ok rs => .ok (r :: rs)

/-- InvoiceParser._flatten_invoice_lines: iterate result["InvoiceLines"].
Iterating a non-list raises (TypeError for None; for a str or dict the
loop yields strings, whose `.get` raises AttributeError, unless empty). -/
def flatten_invoice_lines (result : List (String × Val)) : Except String Val :=
  match dlookup result "InvoiceLines" with
  | none => .ok (.vlist [])
  | some (.vlist ls) =>
    match flattenAll ls with
    | .error e => .error e
    | .ok rs => .ok (.vlist rs)
  | some (.vstr s) => if s = "" then .ok (.vlist []) else .error "AttributeError"
  | some (.vdict d) => if d.isEmpty then .ok (.vlist []) else .error "AttributeError"
  | some .vnone => .error "TypeError"

/-- InvoiceParser._post_process_result_dict. -/
def post_process_result_dict (result : List (String × Val)) : Except String Val := do
  let supplier ← postSupplier result
  let customer ← postCustomer result
  let header ← postHeader result
  let lines ← flatten_invoice_lines result
  .ok (.vdict [("supplier", .vdict supplier), ("customer", .vdict customer),
       ("invoice_header", .vdict header), ("invoice_lines", lines),
       ("pdf_document", .vdict [("pdf_document", dgetD result "PdfDocument" .vnone)])])

/-- CreditNoteParser._post_process_result_dict: the inherited projection,
then res["invoice_header"]["due_date"] = result.get("IssueDate"). -/
def post_process_credit (result : List (String × Val)) : Except String Val := do
  let res ← post_process_result_dict result
  match res with
  | .vdict entries =>
    match dlookup entries "invoice_header" with
    | some (.vdict h) =>
      .ok (.vdict (dset entries "invoice_header"
        (.vdict (dset h "due_date" (dgetD result "IssueDate" .vnone)))))
    | _ => .error "KeyError"
  | _ => .error "TypeError"

/-- InvoiceParser.Run. -/
def runInvoice (root : Elem) : Except String Val := do
  let sol ← runRawInvoice root
  post_process_result_dict sol

/-- CreditNoteParser.Run. -/
def runCredit (root : Elem) : Except String Val := do
  let sol ← runRawCredit root
  post_process_credit sol

/-! ### Observation helpers -/

/-- Did the computation succeed? -/
def exOk : Except String α → Bool
  | .ok _ => true
  | .error _ => false

/-- A field of a successfully produced dict value. -/
def lineField (res : Except String Val) (k : String) : Option Val :=
  match res with
  | .ok (.vdict d) => dlookup d k
  | _ => none

/-- A key of a successfully produced raw accumulator. -/
def rawField (r : Except String (List (String × Val))) (k : String) : Option Val :=
  match r with
  | .ok sol => dlookup sol k
  | .error _ => none

/-- A header field of a successfully produced header dict. -/
def postHeaderField (result : List (String × Val)) (k : String) : Option Val :=
  match postHeader result with
  | .ok h => dlookup h k
  | .error _ => none

/-- The invoice_lines entry of a successfully parsed document. -/
def okLines (r : Except String Val) : Option Val :=
  match r with
  | .ok (.vdict d) => dlookup d "invoice_lines"
  | _ => none

/-- No opening-brace character occurs in the string (every namespace
prefix in ns_filter starts with one). -/
def noBrace (s : String) : Bool :=
  s.data.all (fun c => c != '\x7b')

/-- The accumulator update the Note branch of Run performs: append with a
newline separator, or replace when the accumulator is still empty. -/
def noteStep (n t : String) : String :=
  if n = "" then t else n ++ "\n" ++ t

/-- The texts of the Note children (absent texts skipped), in order. -/
def noteTexts (cs : List Elem) : List String :=
  cs.filterMap (fun c => if prettify_tag c.tag = "Note" then c.text else none)

/-- Texts joined by a single newline, as the spec words it. -/
def joinNL : List String → String
  | [] => ""
  | [t] => t
  | t :: ts => t ++ "\n" ++ joinNL ts

/-- The last top-level child bearing the given bare tag. -/
def lastTagged (t : String) : List Elem → Option Elem
  | [] => none
  | c :: cs =>
    match lastTagged t cs with
    | some r => some r
    | none => if prettify_tag c.tag = t then some c else none

/-- A document with two supplier blocks and two customer blocks. -/
def witPartyDoc : Elem :=
  Elem.mk "Invoice" [] none
    [Elem.mk "AccountingSupplierParty" [] none
       [Elem.mk "Party" [] none [Elem.mk "EndpointID" [] (some "first") []]],
     Elem.mk "AccountingSupplierParty" [] none
       [Elem.mk "Party" [] none [Elem.mk "EndpointID" [] (some "second") []]],
     Elem.mk "AccountingCustomerParty" [] none
       [Elem.mk "Party" [] none [Elem.mk "EndpointID" [] (some "c1") []]],
     Elem.mk "AccountingCustomerParty" [] none
       [Elem.mk "Party" [] none [Elem.mk "EndpointID" [] (some "c2") []]]]

/-- A document whose Note children carry "A" and "B". -/
def witNoteDoc : Elem :=
  Elem.mk "Invoice" [] none
    [Elem.mk "Note" [] (some "A") [], Elem.mk "ID" [] (some "X") [],
     Elem.mk "Note" [] (some "B") []]

/-- An invoice document with a line whose quantity lacks unitCode. -/
def witBadQtyDoc : Elem :=
  Elem.mk "Invoice" [] none
    [Elem.mk "AccountingSupplierParty" [] none [],
     Elem.mk "InvoiceLine" [] none [Elem.mk "InvoicedQuantity" [] (some "5") []]]

/-- A credit note with a line whose credited quantity lacks unitCode. -/
def witBadQtyCredit : Elem :=
  Elem.mk "CreditNote" [] none
    [Elem.mk "CreditNoteLine" [] none [Elem.mk "CreditedQuantity" [] (some "5") []]]

/-- A document with InvoiceLine elements, walked by the CreditNote
variant (variant mismatch). -/
def witMismatchCredit : Elem :=
  Elem.mk "CreditNote" [] none
    [Elem.mk "AccountingSupplierParty" [] none [],
     Elem.mk "AccountingCustomerParty" [] none [],
     Elem.mk "InvoiceLine" [] none [Elem.mk "ID" [] (some "1") []]]

/-- A document with CreditNoteLine elements, walked by the Invoice
variant (variant mismatch). -/
def witMismatchInvoice : Elem :=
  Elem.mk "Invoice" [] none
    [Elem.mk "AccountingSupplierParty" [] none [],
     Elem.mk "AccountingCustomerParty" [] none [],
     Elem.mk "CreditNoteLine" [] none [Elem.mk "ID" [] (some "1") []]]

/-- A raw line dict carrying both an item-level ClassifiedTaxCategory and
line-level tax fields, as parseInvoiceLine would produce for a line whose
Item has a tax block and whose TaxTotal block differs. -/
def witLineCtc : List (String × Val) :=
  [("ID", .vstr "E"), ("Percent", .vstr "0"), ("TaxExemptionReason", .vstr "exempt")]

def witLineItems : List (String × Val) :=
  [("ClassifiedTaxCategory", .vdict witLineCtc)]

def witLineBoth : List (String × Val) :=
  [("Items", .vdict witLineItems), ("TaxID", .vstr "S"),
   ("TaxPercent", .vstr "25"), ("TaxExemptionReason", .vstr "other")]

/-- A raw line dict whose item has no ClassifiedTaxCategory block. -/
def witLineNoCtc : List (String × Val) :=
  [("Items", .vdict []), ("TaxID", .vstr "S")]

/-- A PARTIAL item-level tax block: ID and Percent, but no
TaxExemptionReason. -/
def witLinePartialCtc : List (String × Val) :=
  [("ID", .vstr "E"), ("Percent", .vstr "0")]

def witLinePartialItems : List (String × Val) :=
  [("ClassifiedTaxCategory", .vdict witLinePartialCtc)]

/-- A raw line dict with the partial item-level block beside full
line-level tax fields. -/
def witLinePartial : List (String × Val) :=
  [("Items", .vdict witLinePartialItems), ("TaxID", .vstr "S"),
   ("TaxPercent", .vstr "25"), ("TaxExemptionReason", .vstr "other")]

/-- A parseable document whose invoice line carries a partial item-level
ClassifiedTaxCategory (ID "E", Percent "0", no TaxExemptionReason)
beside a line-level TaxCategory with different values and a
TaxExemptionReason "other". -/
def witMergedDoc : Elem :=
  Elem.mk "Invoice" [] none
    [Elem.mk "AccountingSupplierParty" [] none [],
     Elem.mk "AccountingCustomerParty" [] none [],
     Elem.mk "InvoiceLine" [] none
       [Elem.mk "Item" [] none
         [Elem.mk "Name" [] (some "thing") [],
          Elem.mk "ClassifiedTaxCategory" [] none
            [Elem.mk "ID" [] (some "E") [], Elem.mk "Percent" [] (some "0") []]],
        Elem.mk "TaxTotal" [] none
          [Elem.mk "TaxSubtotal" [] none
            [Elem.mk "TaxCategory" [] none
              [Elem.mk "ID" [] (some "S") [], Elem.mk "Percent" [] (some "25") [],
               Elem.mk "TaxExemptionReason" [] (some "other") []]]]]]

/-- A field of the first line record of a successfully parsed document. -/
def firstLineField (r : Except String Val) (k : String) : Option Val :=
  match r with
  | .ok (.vdict d) =>
    match dlookup d "invoice_lines" with
    | some (.vlist (.vdict ld :: _)) => dlookup ld k
    | _ => none
  | _ => none

/-- An AdditionalDocumentReference element with a base64 payload whose
text carries trailing whitespace. -/
def pdfOkDoc : Elem :=
  Elem.mk "AdditionalDocumentReference" [] none
    [Elem.mk "Attachment" [] none
      [Elem.mk "EmbeddedDocumentBinaryObject" [] (some "AB==  \n") []]]

/-- An AdditionalDocumentReference element whose embedded object text is
whitespace only. -/
def pdfWsDoc : Elem :=
  Elem.mk "AdditionalDocumentReference" [] none
    [Elem.mk "Attachment" [] none
      [Elem.mk "EmbeddedDocumentBinaryObject" [] (some "  \n") []]]

/-- An adversarial tag: an Invoice-2 namespace prefix spliced inside a
CommonExtensionComponents-2 prefix, directly after its opening brace.
One strip pass removes only the inner Invoice-2 prefix, and what is left
is exactly the CommonExtensionComponents-2 prefix. -/
def tagAdversarial : String :=
  "\x7b\x7burn:oasis:names:specification:ubl:schema:xsd:Invoice-2\x7durn:oasis:names:specification:ubl:schema:xsd:CommonExtensionComponents-2\x7d"

/-! ### Dictionary lemmas -/

theorem dlookup_dset (d : List (String × Val)) (k : String) (v : Val) :
    dlookup (dset d k v) k = some v := by
  induction d with
  | nil => simp [dset, dlookup]
  | cons p rest ih =>
    obtain ⟨k0, v0⟩ := p
    by_cases h : k0 = k
    · simp [dset, dlookup, h]
    · simp [dset, dlookup, h, ih]

theorem dlookup_dset_ne (d : List (String × Val)) (k0 k : String) (v : Val)
    (h : k0 ≠ k) : dlookup (dset d k0 v) k = dlookup d k := by
  induction d with
  | nil => simp [dset, dlookup, h]
  | cons p rest ih =>
    obtain ⟨k1, v1⟩ := p
    by_cases h1 : k1 = k0
    · simp [dset, dlookup, h1, h]
    · by_cases h2 : k1 = k
      · simp [dset, dlookup, h1, h2, Ne.symm h]
      · simp [dset, dlookup, h1, h2, ih]

theorem exbind_ok (a : α) (f : α → Except String β) :
    (Except.ok a >>= f) = f a := rfl

theorem exbind_error (e : String) (f : α → Except String β) :
    ((Except.error e : Except String α) >>= f) = .error e := rfl

/-! ### Walker step: keys it does not touch are preserved -/

theorem runStep_pres (lt : String) (lp : Elem → Except String (List (String × Val)))
    (sol sol2 : List (String × Val)) (c : Elem) (k : String)
    (h : runStepWith lt lp sol c = .ok sol2)
    (hk : k ≠ prettify_tag c.tag)
    (hil : k = "InvoiceLines" → prettify_tag c.tag ≠ lt)
    (hpd : k = "PdfDocument" → prettify_tag c.tag ≠ "AdditionalDocumentReference") :
    dlookup sol2 k = dlookup sol k := by
  unfold runStepWith at h
  by_cases h1 : prettify_tag c.tag = "UBLExtensions"
  · rw [if_pos h1] at h
    cases h
    rfl
  rw [if_neg h1] at h
  by_cases h2 : prettify_tag c.tag = lt
  · rw [if_pos h2] at h
    have hkil : ("InvoiceLines" : String) ≠ k := fun he => (hil he.symm) h2
    cases hlp : lp c with
    | error e => rw [hlp] at h; exact Except.noConfusion h
    | ok line =>
      rw [hlp] at h
      unfold appendLine at h
      rcases hll : dlookup sol "InvoiceLines" with _ | (_ | s | d0 | l)
      · rw [hll] at h; exact Except.noConfusion h
      · rw [hll] at h; exact Except.noConfusion h
      · rw [hll] at h; exact Except.noConfusion h
      · rw [hll] at h; exact Except.noConfusion h
      · rw [hll] at h
        cases h
        exact dlookup_dset_ne _ _ _ _ hkil
  rw [if_neg h2] at h
  by_cases h3 : prettify_tag c.tag = "LegalMonetaryTotal"
  · rw [if_pos h3] at h
    cases h
    exact dlookup_dset_ne _ _ _ _ (Ne.symm (h3 ▸ hk))
  rw [if_neg h3] at h
  by_cases h4 : prettify_tag c.tag = "TaxTotal"
  · rw [if_pos h4] at h
    cases h
    exact dlookup_dset_ne _ _ _ _ (Ne.symm (h4 ▸ hk))
  rw [if_neg h4] at h
  by_cases h5 : prettify_tag c.tag = "PaymentMeans"
  · rw [if_pos h5] at h
    cases h
    exact dlookup_dset_ne _ _ _ _ (Ne.symm (h5 ▸ hk))
  rw [if_neg h5] at h
  by_cases h6 : prettify_tag c.tag = "AccountingSupplierParty"
  · rw [if_pos h6] at h
    cases h
    exact dlookup_dset_ne _ _ _ _ (Ne.symm (h6 ▸ hk))
  rw [if_neg h6] at h
  by_cases h7 : prettify_tag c.tag = "AccountingCustomerParty"
  · rw [if_pos h7] at h
    cases h
    exact dlookup_dset_ne _ _ _ _ (Ne.symm (h7 ▸ hk))
  rw [if_neg h7] at h
  by_cases h8 : prettify_tag c.tag = "InvoicePeriod"
  · rw [if_pos h8] at h
    cases h
    exact dlookup_dset_ne _ _ _ _ (Ne.symm (h8 ▸ hk))
  rw [if_neg h8] at h
  by_cases h9 : prettify_tag c.tag = "AdditionalDocumentReference"
  · rw [if_pos h9] at h
    cases hpdf : parsePdfDocument c with
    | error e => rw [hpdf] at h; exact Except.noConfusion h
    | ok pdf =>
      rw [hpdf] at h
      cases h
      exact dlookup_dset_ne _ _ _ _ (fun he => hpd he.symm h9)
  rw [if_neg h9] at h
  by_cases h10 : prettify_tag c.tag = "Note"
  · rw [if_pos h10] at h
    have hn : ("Note" : String) ≠ k := Ne.symm (h10 ▸ hk)
    cases ht : c.text with
    | none => rw [ht] at h; cases h; rfl
    | some t =>
      rw [ht] at h
      dsimp only at h
      by_cases htr : (dgetD sol "Note" Val.vnone).truthy = true
      · rw [if_pos htr] at h
        rcases hcur : dgetD sol "Note" Val.vnone with _ | c0 | d0 | l0
        · rw [hcur] at h; exact Except.noConfusion h
        · rw [hcur] at h
          cases h
          exact dlookup_dset_ne _ _ _ _ hn
        · rw [hcur] at h; exact Except.noConfusion h
        · rw [hcur] at h; exact Except.noConfusion h
      · rw [if_neg htr] at h
        cases h
        exact dlookup_dset_ne _ _ _ _ hn
  rw [if_neg h10] at h
  cases h
  exact dlookup_dset_ne _ _ _ _ (Ne.symm hk)

theorem exFold_pres (lt : String) (lp : Elem → Except String (List (String × Val)))
    (k : String) :
    ∀ (cs : List Elem) (acc sol : List (String × Val)),
    exFold (runStepWith lt lp) acc cs = .ok sol →
    (∀ c ∈ cs, k ≠ prettify_tag c.tag) →
    (k = "InvoiceLines" → ∀ c ∈ cs, prettify_tag c.tag ≠ lt) →
    (k = "PdfDocument" → ∀ c ∈ cs, prettify_tag c.tag ≠ "AdditionalDocumentReference") →
    dlookup sol k = dlookup acc k := by
  intro cs
  induction cs with
  | nil => intro acc sol h _ _ _; cases h; rfl
  | cons c cs ih =>
    intro acc sol h hk hil hpd
    cases hstep : runStepWith lt lp acc c with
    | error e => simp only [exFold, hstep] at h; exact Except.noConfusion h
    | ok acc2 =>
      simp only [exFold, hstep] at h
      have hp : dlookup acc2 k = dlookup acc k :=
        runStep_pres lt lp acc acc2 c k hstep (hk c (List.mem_cons_self _ _))
          (fun he => hil he c (List.mem_cons_self _ _))
          (fun he => hpd he c (List.mem_cons_self _ _))
      rw [ih acc2 sol h (fun x hx => hk x (List.mem_cons_of_mem _ hx))
          (fun he x hx => hil he x (List.mem_cons_of_mem _ hx))
          (fun he x hx => hpd he x (List.mem_cons_of_mem _ hx)), hp]

theorem lastTagged_none (t : String) :
    ∀ cs : List Elem, lastTagged t cs = none → ∀ c ∈ cs, prettify_tag c.tag ≠ t := by
  intro cs
  induction cs with
  | nil => intro _ c hc; cases hc
  | cons c cs ih =>
    intro h x hx
    unfold lastTagged at h
    cases hl : lastTagged t cs with
    | some r => rw [hl] at h; exact Option.noConfusion h
    | none =>
      rw [hl] at h
      by_cases hc : prettify_tag c.tag = t
      · rw [if_pos hc] at h; exact Option.noConfusion h
      · rcases List.mem_cons.mp hx with rfl | hx2
        · exact hc
        · exact ih hl x hx2

theorem run_party_last (lt : String) (lp : Elem → Except String (List (String × Val)))
    (pk : String)
    (hpk : pk = "AccountingSupplierParty" ∨ pk = "AccountingCustomerParty")
    (hlt : lt ≠ pk) :
    ∀ (cs : List Elem) (acc sol : List (String × Val)) (e : Elem),
    exFold (runStepWith lt lp) acc cs = .ok sol →
    lastTagged pk cs = some e →
    dlookup sol pk = some (.vdict (parseAccountingParty e)) := by
  have hne1 : pk ≠ "InvoiceLines" := by rcases hpk with rfl | rfl <;> decide
  have hne2 : pk ≠ "PdfDocument" := by rcases hpk with rfl | rfl <;> decide
  intro cs
  induction cs with
  | nil => intro acc sol e h hl; exact absurd hl (by simp [lastTagged])
  | cons c cs ih =>
    intro acc sol e h hl
    cases hstep : runStepWith lt lp acc c with
    | error er => simp only [exFold, hstep] at h; exact Except.noConfusion h
    | ok acc2 =>
      simp only [exFold, hstep] at h
      unfold lastTagged at hl
      cases hlc : lastTagged pk cs with
      | some r =>
        rw [hlc] at hl
        cases hl
        exact ih acc2 sol e h hlc
      | none =>
        rw [hlc] at hl
        by_cases hc : prettify_tag c.tag = pk
        · rw [if_pos hc] at hl
          cases hl
          have hstep2 : acc2 = dset acc pk (.vdict (parseAccountingParty c)) := by
            rcases hpk with rfl | rfl <;>
              (unfold runStepWith at hstep
               simp [hc, Ne.symm hlt] at hstep
               exact hstep.symm)
          have hnone := lastTagged_none pk cs hlc
          have hpres := exFold_pres lt lp pk cs acc2 sol h
            (fun x hx => Ne.symm (hnone x hx))
            (fun he => absurd he hne1)
            (fun he => absurd he hne2)
          rw [hpres, hstep2, dlookup_dset]
        · rw [if_neg hc] at hl
          exact Option.noConfusion hl

/-! ### Namespace stripping (C4) -/

theorem strDeleteAux_nobrace (p : List Char) (hp : p.head? = some '\x7b') :
    ∀ (fuel : Nat) (s : List Char), s.all (fun c => c != '\x7b') = true →
    strDeleteAux p fuel s = s := by
  intro fuel
  induction fuel with
  | zero => intro s _; rfl
  | succ n ih =>
    intro s hs
    cases s with
    | nil => rfl
    | cons c rest =>
      have hc : (c != '\x7b') = true ∧ rest.all (fun x => x != '\x7b') = true := by
        simpa [List.all_cons] using hs
      cases p with
      | nil => simp at hp
      | cons p0 pr =>
        have hp0 : p0 = '\x7b' := by simpa using hp
        subst hp0
        have hcne : c ≠ '\x7b' := by simpa using hc.1
        have hpre : (('\x7b' :: pr).isPrefixOf (c :: rest)) = false := by
          simp [List.isPrefixOf, Ne.symm hcne]
        simp [strDeleteAux, hpre, ih rest hc.2]

theorem pyReplaceEmpty_nobrace (s ns : String) (hns : ns.data.head? = some '\x7b')
    (hs : noBrace s = true) : pyReplaceEmpty s ns = s := by
  unfold pyReplaceEmpty
  rw [strDeleteAux_nobrace ns.data hns s.data.length s.data hs]

theorem prettify_tag_nobrace (s : String) (hs : noBrace s = true) :
    prettify_tag s = s := by
  have key : ∀ ns : String, ns.data.head? = some '\x7b' → pyReplaceEmpty s ns = s :=
    fun ns hns => pyReplaceEmpty_nobrace s ns hns hs
  show List.foldl _ s ns_filter = s
  simp only [ns_filter, List.foldl]
  rw [key _ (by decide), key _ (by decide), key _ (by decide), key _ (by decide)]

/-! ### Payment id split (C5, C10) -/

theorem exOk_bind {x : Except String α} {f : α → Except String β}
    (h : exOk (x >>= f) = true) : ∃ a, x = .ok a ∧ exOk (f a) = true := by
  cases x with
  | error e => simp [exbind_error, exOk] at h
  | ok a => exact ⟨a, rfl, h⟩

theorem postHeader_payment (result : List (String × Val)) (v mo re : Val)
    (hg2 : g2 result "PaymentMeans" "PaymentID" = .ok v)
    (hparse : parse_payment_id v = .ok (mo, re))
    (hok : exOk (postHeader result) = true) :
    postHeaderField result "payment_model" = some mo ∧
    postHeaderField result "payment_reference" = some re := by
  unfold postHeader at hok
  obtain ⟨pid, e1, hok⟩ := exOk_bind hok
  have hpv : pid = v := by
    have := e1.symm.trans hg2
    exact Except.ok.inj this
  subst hpv
  obtain ⟨pmr, e2, hok⟩ := exOk_bind hok
  have hpmr : pmr = (mo, re) := by
    have := e2.symm.trans hparse
    exact Except.ok.inj this
  subst hpmr
  obtain ⟨ta, e3, hok⟩ := exOk_bind hok
  obtain ⟨tp, e4, hok⟩ := exOk_bind hok
  obtain ⟨te, e5, hok⟩ := exOk_bind hok
  obtain ⟨tx, e6, hok⟩ := exOk_bind hok
  obtain ⟨ib, e7, hok⟩ := exOk_bind hok
  obtain ⟨ins, e8, hok⟩ := exOk_bind hok
  obtain ⟨pc, e9, hok⟩ := exOk_bind hok
  obtain ⟨p2, e10, hok⟩ := exOk_bind hok
  obtain ⟨pa, e11, hok⟩ := exOk_bind hok
  unfold postHeaderField postHeader
  rw [hg2, exbind_ok, hparse, exbind_ok, e3, exbind_ok, e4, exbind_ok,
      e5, exbind_ok, e6, exbind_ok, e7, exbind_ok, e8, exbind_ok, e9, exbind_ok]
  simp [exbind_ok, e11, dlookup]

/-- C1: the claim says a document with no AccountingSupplierParty (or no
AccountingCustomerParty) top-level child parses with null supplier fields.
The code instead raises: Run pre-seeds both party slots with an empty
LIST, and the projector calls `.get` on that list, an AttributeError.
This theorem evaluates the parser at such a failing input. -/
theorem run_missing_supplier_crashes :
    runInvoice (Elem.mk "Invoice" [] none []) = .error "AttributeError" := rfl

/-- C4 counterexample: namespace stripping is not idempotent on every tag
string; deleting the Invoice-2 prefix can create a fresh
CommonExtensionComponents-2 prefix that only a second pass removes. -/
theorem prettify_tag_not_idem :
    prettify_tag (prettify_tag tagAdversarial) ≠ prettify_tag tagAdversarial := by
  decide

/-- C4 (amended): namespace stripping is idempotent on every tag whose
once-stripped form contains no opening brace — in particular on every
tag made of one known namespace prefix (or none) followed by a brace-free
local name. -/
theorem prettify_tag_idem (t : String) (h : noBrace (prettify_tag t) = true) :
    prettify_tag (prettify_tag t) = prettify_tag t :=
  prettify_tag_nobrace (prettify_tag t) h

theorem expure (x : α) : (pure x : Except String α) = .ok x := rfl

theorem pyGet_vdict (d : List (String × Val)) (k : String) :
    (Val.vdict d).pyGet k = .ok (dgetD d k .vnone) := rfl

theorem pyGetD_vdict (d : List (String × Val)) (k : String) (dflt : Val) :
    (Val.vdict d).pyGetD k dflt = .ok (dgetD d k dflt) := rfl

theorem ite_ok_ok (c : Prop) [Decidable c] (a b : Val) :
    (if c then (Except.ok a : Except String Val) else .ok b) = .ok (if c then a else b) := by
  by_cases h : c <;> simp [h]

/-- C3 counterexample: on a parseable line whose item-level
ClassifiedTaxCategory carries only ID "E" and Percent "0" (no
TaxExemptionReason) beside a line-level block with TaxExemptionReason
"other", the output record takes id and percent from the item block but
the exemption reason from the line-level block — one record mixes the
two sources, so the item block does not fully shadow the line block and
the two ARE merged (pure item-level sourcing would give a None reason,
and None differs from "other"). -/
theorem line_tax_merged_counterexample :
    firstLineField (runInvoice witMergedDoc) "tax_category_id" = some (.vstr "E") ∧
    firstLineField (runInvoice witMergedDoc) "tax_percent" = some (.vstr "0") ∧
    firstLineField (runInvoice witMergedDoc) "tax_exemption_reason" =
      some (.vstr "other") ∧
    (some (Val.vstr "other") : Option Val) ≠ some .vnone :=
  ⟨rfl, rfl, rfl, fun h => Val.noConfusion (Option.some.inj h)⟩

/-- C3 (amended): each of the three tax fields of a flattened line
record is sourced independently, per field: from the item-level
ClassifiedTaxCategory block when that field's value there is truthy
(present with nonempty text), otherwise from the line-level tax fields —
so a partial item-level block is merged per field with the line-level
block, and the item level fully shadows the line level only when all
its three fields are truthy; when the item carries no
ClassifiedTaxCategory block at all, the line-level values are used. -/
theorem line_tax_field_fallback :
    (∀ (i items ctc : List (String × Val)),
      dlookup i "Items" = some (.vdict items) →
      dlookup items "ClassifiedTaxCategory" = some (.vdict ctc) →
      exOk (flattenLine (.vdict i)) = true →
      lineField (flattenLine (.vdict i)) "tax_category_id" =
        some (if (dgetD ctc "ID" .vnone).truthy = true then dgetD ctc "ID" .vnone
              else dgetD i "TaxID" .vnone) ∧
      lineField (flattenLine (.vdict i)) "tax_percent" =
        some (if (dgetD ctc "Percent" .vnone).truthy = true then dgetD ctc "Percent" .vnone
              else dgetD i "TaxPercent" .vnone) ∧
      lineField (flattenLine (.vdict i)) "tax_exemption_reason" =
        some (if (dgetD ctc "TaxExemptionReason" .vnone).truthy = true
              then dgetD ctc "TaxExemptionReason" .vnone
              else dgetD i "TaxExemptionReason" .vnone)) ∧
    (∀ (i items : List (String × Val)),
      dlookup i "Items" = some (.vdict items) →
      dlookup items "ClassifiedTaxCategory" = none →
      exOk (flattenLine (.vdict i)) = true →
      lineField (flattenLine (.vdict i)) "tax_category_id" = some (dgetD i "TaxID" .vnone) ∧
      lineField (flattenLine (.vdict i)) "tax_percent" = some (dgetD i "TaxPercent" .vnone) ∧
      lineField (flattenLine (.vdict i)) "tax_exemption_reason" =
        some (dgetD i "TaxExemptionReason" .vnone)) := by
  constructor
  · intro i items ctc hItems hCtc hok
    simp only [lineField, flattenLine, pyGetD_vdict, pyGet_vdict, exbind_ok, expure,
      ite_ok_ok, dgetD, hItems, hCtc] at hok ⊢
    rcases hu : dlookup i "Price" with _ | (_ | ps | pd | pl) <;>
      rcases hw : dlookup ctc "TaxScheme" with _ | (_ | ws | wd | wl) <;>
      try simp only [hu, hw, Val.pyGet, Val.pyGetD, dgetD, dlookup, exbind_ok,
        exbind_error, exOk, ite_self] at hok ⊢
    all_goals first
    | exact absurd hok Bool.false_ne_true
    | (split_ifs <;> simp [dlookup])
  · intro i items hItems hCtc hok
    simp only [lineField, flattenLine, pyGetD_vdict, pyGet_vdict, exbind_ok, expure,
      dgetD, hItems, hCtc, Val.truthy, Bool.not_false, if_true, dlookup] at hok ⊢
    rcases hu : dlookup i "Price" with _ | (_ | ps | pd | pl) <;>
      simp only [hu, Val.pyGet, Val.pyGetD, dgetD, dlookup, exbind_ok, exbind_error,
        exOk] at hok ⊢ <;>
      first
      | exact absurd hok Bool.false_ne_true
      | simp [dlookup]

theorem line_tax_field_fallback_witness :
    lineField (flattenLine (.vdict witLinePartial)) "tax_category_id" =
      some (.vstr "E") ∧
    lineField (flattenLine (.vdict witLinePartial)) "tax_exemption_reason" =
      some (.vstr "other") ∧
    lineField (flattenLine (.vdict witLineBoth)) "tax_category_id" = some (.vstr "E") ∧
    lineField (flattenLine (.vdict witLineBoth)) "tax_percent" = some (.vstr "0") ∧
    lineField (flattenLine (.vdict witLineBoth)) "tax_exemption_reason" =
      some (.vstr "exempt") ∧
    lineField (flattenLine (.vdict witLineNoCtc)) "tax_category_id" = some (.vstr "S") :=
  ⟨(line_tax_field_fallback.1 witLinePartial witLinePartialItems witLinePartialCtc
      rfl rfl rfl).1,
   (line_tax_field_fallback.1 witLinePartial witLinePartialItems witLinePartialCtc
      rfl rfl rfl).2.2,
   (line_tax_field_fallback.1 witLineBoth witLineItems witLineCtc rfl rfl rfl).1,
   (line_tax_field_fallback.1 witLineBoth witLineItems witLineCtc rfl rfl rfl).2.1,
   (line_tax_field_fallback.1 witLineBoth witLineItems witLineCtc rfl rfl rfl).2.2,
   (line_tax_field_fallback.2 witLineNoCtc [] rfl rfl rfl).1⟩

/-! ### Missing unitCode attribute (C6) -/

theorem parseInvoiceLine_missing_unitCode :
    ∀ (cs : List Elem) (d : List (String × Val)),
    (∃ q ∈ cs, prettify_tag q.tag = "InvoicedQuantity" ∧
      q.attrib.lookup "unitCode" = none) →
    ∃ e, exFold parseInvoiceLineStep d cs = .error e := by
  intro cs
  induction cs with
  | nil => rintro d ⟨q, hq, _⟩; cases hq
  | cons c cs ih =>
    rintro d ⟨q, hq, hqt, hqa⟩
    rcases List.mem_cons.mp hq with rfl | hq2
    · have hstep : parseInvoiceLineStep d q = .error "KeyError" := by
        unfold parseInvoiceLineStep
        simp [hqt, attrGet, hqa]
      exact ⟨"KeyError", by simp [exFold, hstep]⟩
    · cases hstep : parseInvoiceLineStep d c with
      | error e => exact ⟨e, by simp [exFold, hstep]⟩
      | ok d2 =>
        rcases ih d2 ⟨q, hq2, hqt, hqa⟩ with ⟨e, he⟩
        exact ⟨e, by simp [exFold, hstep, he]⟩

theorem parseCreditLine_missing_unitCode :
    ∀ (cs : List Elem) (d : List (String × Val)),
    (∃ q ∈ cs, prettify_tag q.tag = "CreditedQuantity" ∧
      q.attrib.lookup "unitCode" = none) →
    ∃ e, exFold parseCreditLineStep d cs = .error e := by
  intro cs
  induction cs with
  | nil => rintro d ⟨q, hq, _⟩; cases hq
  | cons c cs ih =>
    rintro d ⟨q, hq, hqt, hqa⟩
    rcases List.mem_cons.mp hq with rfl | hq2
    · have hstep : parseCreditLineStep d q = .error "KeyError" := by
        unfold parseCreditLineStep
        simp [hqt, attrGet, hqa]
      exact ⟨"KeyError", by simp [exFold, hstep]⟩
    · cases hstep : parseCreditLineStep d c with
      | error e => exact ⟨e, by simp [exFold, hstep]⟩
      | ok d2 =>
        rcases ih d2 ⟨q, hq2, hqt, hqa⟩ with ⟨e, he⟩
        exact ⟨e, by simp [exFold, hstep, he]⟩

theorem run_line_error (lt : String) (lp : Elem → Except String (List (String × Val))) :
    ∀ (cs : List Elem) (acc : List (String × Val)),
    (∃ c ∈ cs, prettify_tag c.tag = lt ∧ ∃ e, lp c = .error e) →
    lt ≠ "UBLExtensions" →
    ∃ e, exFold (runStepWith lt lp) acc cs = .error e := by
  intro cs
  induction cs with
  | nil => rintro acc ⟨c, hc, _⟩ _; cases hc
  | cons c cs ih =>
    rintro acc ⟨q, hq, hqt, e0, hqe⟩ hlt
    rcases List.mem_cons.mp hq with rfl | hq2
    · have hstep : runStepWith lt lp acc q = .error e0 := by
        unfold runStepWith
        rw [if_neg (fun h => hlt (hqt ▸ h)), if_pos hqt, hqe]
      exact ⟨e0, by simp [exFold, hstep]⟩
    · cases hstep : runStepWith lt lp acc c with
      | error e => exact ⟨e, by simp [exFold, hstep]⟩
      | ok acc2 =>
        rcases ih acc2 ⟨q, hq2, hqt, e0, hqe⟩ hlt with ⟨e, he⟩
        exact ⟨e, by simp [exFold, hstep, he]⟩

/-- C6: a quantity element (InvoicedQuantity under the Invoice walker,
CreditedQuantity under the CreditNote walker) inside a line that lacks
the unitCode attribute makes the whole parse fail with an error; no
default is substituted and no partial record is returned. -/
theorem quantity_missing_unitCode_fails :
    (∀ root : Elem,
      (∃ c ∈ root.children, prettify_tag c.tag = "InvoiceLine" ∧
        ∃ q ∈ c.children, prettify_tag q.tag = "InvoicedQuantity" ∧
          q.attrib.lookup "unitCode" = none) →
      ∃ e, runInvoice root = .error e) ∧
    (∀ root : Elem,
      (∃ c ∈ root.children, prettify_tag c.tag = "CreditNoteLine" ∧
        ∃ q ∈ c.children, prettify_tag q.tag = "CreditedQuantity" ∧
          q.attrib.lookup "unitCode" = none) →
      ∃ e, runCredit root = .error e) := by
  constructor
  · rintro root ⟨c, hc, hct, hq⟩
    have hline : ∃ e, parseInvoiceLine c = .error e :=
      parseInvoiceLine_missing_unitCode c.children [] hq
    rcases run_line_error "InvoiceLine" parseInvoiceLine root.children initSol
      ⟨c, hc, hct, hline⟩ (by decide) with ⟨e, he⟩
    refine ⟨e, ?_⟩
    unfold runInvoice runRawInvoice
    rw [he]
    rfl
  · rintro root ⟨c, hc, hct, hq⟩
    have hline : ∃ e, parseCreditLine c = .error e :=
      parseCreditLine_missing_unitCode c.children [] hq
    rcases run_line_error "CreditNoteLine" parseCreditLine root.children initSol
      ⟨c, hc, hct, hline⟩ (by decide) with ⟨e, he⟩
    refine ⟨e, ?_⟩
    unfold runCredit runRawCredit
    rw [he]
    rfl

theorem quantity_missing_unitCode_fails_witness :
    (∃ e, runInvoice witBadQtyDoc = .error e) ∧
    (∃ e, runCredit witBadQtyCredit = .error e) :=
  ⟨quantity_missing_unitCode_fails.1 witBadQtyDoc (by decide),
   quantity_missing_unitCode_fails.2 witBadQtyCredit (by decide)⟩

/-! ### Variant mismatch (C9) -/

theorem run_lines_untouched (lt : String)
    (lp : Elem → Except String (List (String × Val))) :
    ∀ (cs : List Elem) (acc sol : List (String × Val)),
    exFold (runStepWith lt lp) acc cs = .ok sol →
    (∀ c ∈ cs, prettify_tag c.tag ≠ lt) →
    (dlookup acc "InvoiceLines" = some (.vlist []) ∨
      ∃ os : Option String, dlookup acc "InvoiceLines" = some (optV os)) →
    (dlookup sol "InvoiceLines" = some (.vlist []) ∨
      ∃ os : Option String, dlookup sol "InvoiceLines" = some (optV os)) := by
  intro cs
  induction cs with
  | nil => intro acc sol h _ hi; cases h; exact hi
  | cons c cs ih =>
    intro acc sol h hl hi
    cases hstep : runStepWith lt lp acc c with
    | error e => simp only [exFold, hstep] at h; exact Except.noConfusion h
    | ok acc2 =>
      simp only [exFold, hstep] at h
      refine ih acc2 sol h (fun x hx => hl x (List.mem_cons_of_mem _ hx)) ?_
      by_cases hc : prettify_tag c.tag = "InvoiceLines"
      · have hlc : ("InvoiceLines" : String) ≠ lt := hc ▸ hl c (List.mem_cons_self _ _)
        have ha : acc2 = dset acc "InvoiceLines" (optV c.text) := by
          unfold runStepWith at hstep
          simp [hc, hlc] at hstep
          exact hstep.symm
        rw [ha, dlookup_dset]
        exact Or.inr ⟨c.text, rfl⟩
      · have hp := runStep_pres lt lp acc acc2 c "InvoiceLines" hstep (Ne.symm hc)
          (fun _ => hl c (List.mem_cons_self _ _))
          (fun he => absurd he (by decide))
        rw [hp]
        exact hi

theorem flatten_lines_inv (result : List (String × Val)) (l : Val)
    (hinv : dlookup result "InvoiceLines" = some (.vlist []) ∨
            ∃ os : Option String, dlookup result "InvoiceLines" = some (optV os))
    (hok : flatten_invoice_lines result = .ok l) : l = .vlist [] := by
  unfold flatten_invoice_lines at hok
  rcases hinv with hv | ⟨os, hv⟩
  · rw [hv] at hok
    simp [flattenAll] at hok
    exact hok.symm
  · rcases os with _ | s
    · rw [hv] at hok
      simp [optV] at hok
    · rw [hv] at hok
      by_cases hs : s = ""
      · simp [optV, hs] at hok
        exact hok.symm
      · simp [optV, hs] at hok

theorem post_lines (result : List (String × Val)) (out : Val)
    (h : post_process_result_dict result = .ok out) :
    ∃ lines, flatten_invoice_lines result = .ok lines ∧
      okLines (.ok out) = some lines := by
  unfold post_process_result_dict at h
  cases hs : postSupplier result with
  | error e => rw [hs, exbind_error] at h; exact Except.noConfusion h
  | ok sup =>
    rw [hs, exbind_ok] at h
    cases hc : postCustomer result with
    | error e => rw [hc, exbind_error] at h; exact Except.noConfusion h
    | ok cus =>
      rw [hc, exbind_ok] at h
      cases hh : postHeader result with
      | error e => rw [hh, exbind_error] at h; exact Except.noConfusion h
      | ok hd =>
        rw [hh, exbind_ok] at h
        cases hl : flatten_invoice_lines result with
        | error e => rw [hl, exbind_error] at h; exact Except.noConfusion h
        | ok lines =>
          rw [hl, exbind_ok] at h
          cases h
          exact ⟨lines, rfl, by simp [okLines, dlookup]⟩

theorem post_credit_lines (result : List (String × Val)) (out : Val)
    (h : post_process_credit result = .ok out) :
    ∃ lines, flatten_invoice_lines result = .ok lines ∧
      okLines (.ok out) = some lines := by
  unfold post_process_credit at h
  cases hp : post_process_result_dict result with
  | error e => rw [hp, exbind_error] at h; exact Except.noConfusion h
  | ok res =>
    rw [hp, exbind_ok] at h
    rcases post_lines result res hp with ⟨lines, hfl, hol⟩
    rcases res with _ | s | entries | l
    · exact Except.noConfusion h
    · exact Except.noConfusion h
    · dsimp only at h
      cases hih : dlookup entries "invoice_header" with
      | none => rw [hih] at h; exact Except.noConfusion h
      | some v =>
        rw [hih] at h
        rcases v with _ | s2 | hd | l2
        · exact Except.noConfusion h
        · exact Except.noConfusion h
        · cases h
          refine ⟨lines, hfl, ?_⟩
          show dlookup (dset entries "invoice_header" _) "invoice_lines" = some lines
          rw [dlookup_dset_ne _ _ _ _ (by decide)]
          exact hol
        · exact Except.noConfusion h
    · exact Except.noConfusion h

/-- C9: when no top-level child bears the walker variant's line tag
(a CreditNote walker over InvoiceLine elements or vice versa), a parse
that completes does so without recognizing any line: the output's
invoice_lines is the empty sequence, silently. -/
theorem variant_mismatch_silent :
    (∀ root : Elem,
      (∀ c ∈ root.children, prettify_tag c.tag ≠ "CreditNoteLine") →
      exOk (runCredit root) = true →
      okLines (runCredit root) = some (.vlist [])) ∧
    (∀ root : Elem,
      (∀ c ∈ root.children, prettify_tag c.tag ≠ "InvoiceLine") →
      exOk (runInvoice root) = true →
      okLines (runInvoice root) = some (.vlist [])) := by
  constructor
  · intro root hnc hok
    cases hr : runCredit root with
    | error e => rw [hr] at hok; exact absurd hok (by simp [exOk])
    | ok out =>
      unfold runCredit at hr
      cases hraw : runRawCredit root with
      | error e => rw [hraw, exbind_error] at hr; exact Except.noConfusion hr
      | ok sol =>
        rw [hraw, exbind_ok] at hr
        have hinv := run_lines_untouched "CreditNoteLine" parseCreditLine root.children
          initSol sol hraw hnc (Or.inl rfl)
        rcases post_credit_lines sol out hr with ⟨lines, hfl, hol⟩
        have hlv : lines = .vlist [] := flatten_lines_inv sol lines hinv hfl
        rw [← hlv]
        exact hol
  · intro root hnc hok
    cases hr : runInvoice root with
    | error e => rw [hr] at hok; exact absurd hok (by simp [exOk])
    | ok out =>
      unfold runInvoice at hr
      cases hraw : runRawInvoice root with
      | error e => rw [hraw, exbind_error] at hr; exact Except.noConfusion hr
      | ok sol =>
        rw [hraw, exbind_ok] at hr
        have hinv := run_lines_untouched "InvoiceLine" parseInvoiceLine root.children
          initSol sol hraw hnc (Or.inl rfl)
        rcases post_lines sol out hr with ⟨lines, hfl, hol⟩
        have hlv : lines = .vlist [] := flatten_lines_inv sol lines hinv hfl
        rw [← hlv]
        exact hol

theorem variant_mismatch_silent_witness :
    okLines (runCredit witMismatchCredit) = some (.vlist []) ∧
    okLines (runInvoice witMismatchInvoice) = some (.vlist []) :=
  ⟨variant_mismatch_silent.1 witMismatchCredit (by decide) rfl,
   variant_mismatch_silent.2 witMismatchInvoice (by decide) rfl⟩

/-! ### PDF attachment (C8) -/

/-- C7: when the top-level children contain one or more supplier
(resp. customer) blocks, the raw accumulator's party slot after the walk
is exactly the parse of the LAST such block in document order — earlier
occurrences are overwritten. -/
theorem party_last_wins :
    (∀ (root : Elem) (e : Elem),
      lastTagged "AccountingSupplierParty" root.children = some e →
      exOk (runRawInvoice root) = true →
      rawField (runRawInvoice root) "AccountingSupplierParty" =
        some (.vdict (parseAccountingParty e))) ∧
    (∀ (root : Elem) (e : Elem),
      lastTagged "AccountingCustomerParty" root.children = some e →
      exOk (runRawInvoice root) = true →
      rawField (runRawInvoice root) "AccountingCustomerParty" =
        some (.vdict (parseAccountingParty e))) := by
  constructor <;>
    (intro root e hl hok
     cases hr : runRawInvoice root with
     | error er => rw [hr] at hok; exact absurd hok (by simp [exOk])
     | ok sol =>
       first
       | exact run_party_last "InvoiceLine" parseInvoiceLine "AccountingSupplierParty"
           (Or.inl rfl) (by decide) root.children initSol sol e hr hl
       | exact run_party_last "InvoiceLine" parseInvoiceLine "AccountingCustomerParty"
           (Or.inr rfl) (by decide) root.children initSol sol e hr hl)

theorem party_last_wins_witness :
    rawField (runRawInvoice witPartyDoc) "AccountingSupplierParty" =
      some (.vdict [("EndpointID", .vstr "second")]) ∧
    rawField (runRawInvoice witPartyDoc) "AccountingCustomerParty" =
      some (.vdict [("EndpointID", .vstr "c2")]) :=
  ⟨party_last_wins.1 witPartyDoc
     (Elem.mk "AccountingSupplierParty" [] none
       [Elem.mk "Party" [] none [Elem.mk "EndpointID" [] (some "second") []]]) rfl rfl,
   party_last_wins.2 witPartyDoc
     (Elem.mk "AccountingCustomerParty" [] none
       [Elem.mk "Party" [] none [Elem.mk "EndpointID" [] (some "c2") []]]) rfl rfl⟩

/-! ### Note accumulation (C2) -/

theorem append_ne_empty_left (a b : String) (ha : a ≠ "") : a ++ b ≠ "" := by
  intro he
  apply ha
  have hd := congrArg String.data he
  rw [String.data_append] at hd
  have h2 := (List.append_eq_nil.mp hd).1
  cases a with
  | mk d =>
    cases h2
    rfl

theorem joinNL_cons (a t : String) (ts : List String) :
    joinNL ((a ++ "\n" ++ t) :: ts) = a ++ "\n" ++ joinNL (t :: ts) := by
  cases ts with
  | nil => rfl
  | cons u us => simp [joinNL, String.append_assoc]

theorem foldl_noteStep_join :
    ∀ (ts : List String) (n : String), n ≠ "" →
    List.foldl noteStep n ts = joinNL (n :: ts) := by
  intro ts
  induction ts with
  | nil => intro n hn; rfl
  | cons t ts ih =>
    intro n hn
    have hstep : noteStep n t = n ++ "\n" ++ t := by simp [noteStep, hn]
    have hne2 : n ++ "\n" ++ t ≠ "" :=
      append_ne_empty_left _ _ (append_ne_empty_left _ _ hn)
    rw [List.foldl_cons, hstep, ih _ hne2, joinNL_cons]
    rfl

theorem run_note_fold (lt : String) (lp : Elem → Except String (List (String × Val)))
    (hlt : lt ≠ "Note") :
    ∀ (cs : List Elem) (acc sol : List (String × Val)) (n : String),
    exFold (runStepWith lt lp) acc cs = .ok sol →
    dlookup acc "Note" = some (.vstr n) →
    dlookup sol "Note" = some (.vstr (List.foldl noteStep n (noteTexts cs))) := by
  intro cs
  induction cs with
  | nil =>
    intro acc sol n h hn
    cases h
    simpa [noteTexts] using hn
  | cons c cs ih =>
    intro acc sol n h hn
    cases hstep : runStepWith lt lp acc c with
    | error e => simp only [exFold, hstep] at h; exact Except.noConfusion h
    | ok acc2 =>
      simp only [exFold, hstep] at h
      by_cases hc : prettify_tag c.tag = "Note"
      · cases ht : c.text with
        | none =>
          have ha : acc2 = acc := by
            unfold runStepWith at hstep
            simp [hc, Ne.symm hlt, ht] at hstep
            exact hstep.symm
          have hnt : noteTexts (c :: cs) = noteTexts cs := by
            simp [noteTexts, hc, ht]
          rw [hnt]
          exact ih acc2 sol n h (by rw [ha]; exact hn)
        | some t =>
          have hnt : noteTexts (c :: cs) = t :: noteTexts cs := by
            simp [noteTexts, hc, ht]
          have ha : acc2 = dset acc "Note" (.vstr (noteStep n t)) := by
            unfold runStepWith at hstep
            by_cases hne : n = ""
            · rw [show noteStep n t = t by simp [noteStep, hne]]
              simp [hc, Ne.symm hlt, ht, dgetD, hn, Val.truthy, hne] at hstep
              exact hstep.symm
            · rw [show noteStep n t = n ++ "\n" ++ t by simp [noteStep, hne]]
              simp [hc, Ne.symm hlt, ht, dgetD, hn, Val.truthy, hne] at hstep
              exact hstep.symm
          rw [hnt, List.foldl_cons]
          exact ih acc2 sol (noteStep n t) h (by rw [ha, dlookup_dset])
      · have hp := runStep_pres lt lp acc acc2 c "Note" hstep (Ne.symm hc)
          (fun he => absurd he (by decide)) (fun he => absurd he (by decide))
        have hnt : noteTexts (c :: cs) = noteTexts cs := by simp [noteTexts, hc]
        rw [hnt]
        exact ih acc2 sol n h (hp.trans hn)

theorem mem_noteTexts (cs : List Elem) (t : String) (ht : t ∈ noteTexts cs) :
    ∃ c ∈ cs, prettify_tag c.tag = "Note" ∧ c.text = some t := by
  rcases List.mem_filterMap.mp ht with ⟨c, hc, hf⟩
  by_cases hn : prettify_tag c.tag = "Note"
  · rw [if_pos hn] at hf
    exact ⟨c, hc, hn, hf⟩
  · rw [if_neg hn] at hf
    exact Option.noConfusion hf

/-- C2: the walker's accumulated Note value is the texts of the Note
children, absent texts skipped, joined in document order by single
newlines (provided no Note carries the empty-string text, which an XML
parse cannot produce — an empty Note element has text None). -/
theorem note_concatenation (root : Elem)
    (hne : ∀ c ∈ root.children, prettify_tag c.tag = "Note" → c.text ≠ some "")
    (hok : exOk (runRawInvoice root) = true) :
    rawField (runRawInvoice root) "Note" =
      some (.vstr (joinNL (noteTexts root.children))) := by
  cases hr : runRawInvoice root with
  | error e => rw [hr] at hok; exact absurd hok (by simp [exOk])
  | ok sol =>
    have h1 := run_note_fold "InvoiceLine" parseInvoiceLine (by decide) root.children
      initSol sol "" hr rfl
    cases hts : noteTexts root.children with
    | nil => rw [hts] at h1; exact h1
    | cons t ts =>
      have htne : t ≠ "" := by
        have hm : t ∈ noteTexts root.children := by rw [hts]; exact List.mem_cons_self _ _
        rcases mem_noteTexts _ _ hm with ⟨c, hcmem, hcn, hct⟩
        intro heq
        exact hne c hcmem hcn (heq ▸ hct)
      rw [hts] at h1
      rw [List.foldl_cons] at h1
      have hj : List.foldl noteStep (noteStep "" t) ts = joinNL (t :: ts) :=
        foldl_noteStep_join ts (noteStep "" t) (by simp [noteStep]; exact htne) ▸ by
          rw [show noteStep "" t = t by simp [noteStep]]
      show dlookup sol "Note" = some (.vstr (joinNL (t :: ts)))
      rw [h1, hj]

theorem note_concatenation_witness :
    rawField (runRawInvoice witNoteDoc) "Note" = some (.vstr "A\nB") :=
  note_concatenation witNoteDoc (by decide) rfl

theorem pdfEmbed_fold (cs : List Elem)
    (h : ∀ m ∈ cs, prettify_tag m.tag = "EmbeddedDocumentBinaryObject" → m.text ≠ none) :
    ∀ acc, exFold pdfEmbedStep acc cs =
      .ok (match lastEmbOfAttachment cs with
           | none => acc
           | some m => b64encode (utf8Bytes (pyStrip (m.text.getD "")))) := by
  induction cs with
  | nil => intro acc; rfl
  | cons m ms ih =>
    intro acc
    have hms : ∀ x ∈ ms, prettify_tag x.tag = "EmbeddedDocumentBinaryObject" →
        x.text ≠ none :=
      fun x hx hp => h x (List.mem_cons_of_mem _ hx) hp
    by_cases he : prettify_tag m.tag = "EmbeddedDocumentBinaryObject"
    · rcases ht : m.text with _ | t
      · exact absurd ht (h m (List.mem_cons_self _ _) he)
      · have hstep : pdfEmbedStep acc m = .ok (b64encode (utf8Bytes (pyStrip t))) := by
          simp [pdfEmbedStep, he, ht]
        simp only [exFold, hstep]
        rw [ih hms]
        cases hl : lastEmbOfAttachment ms with
        | some r => simp [lastEmbOfAttachment, hl]
        | none => simp [lastEmbOfAttachment, hl, he, ht]
    · have hstep : pdfEmbedStep acc m = .ok acc := by simp [pdfEmbedStep, he]
      simp only [exFold, hstep]
      rw [ih hms]
      cases hl : lastEmbOfAttachment ms with
      | some r => simp [lastEmbOfAttachment, hl]
      | none => simp [lastEmbOfAttachment, hl, he]

theorem pdf_fold (cs : List Elem)
    (h : ∀ c ∈ cs, prettify_tag c.tag = "Attachment" →
         ∀ m ∈ c.children, prettify_tag m.tag = "EmbeddedDocumentBinaryObject" →
         m.text ≠ none) :
    ∀ acc, exFold parsePdfStep acc cs =
      .ok (match lastEmbedIn cs with
           | none => acc
           | some m => b64encode (utf8Bytes (pyStrip (m.text.getD "")))) := by
  induction cs with
  | nil => intro acc; rfl
  | cons c cs ih =>
    intro acc
    have hcs : ∀ x ∈ cs, prettify_tag x.tag = "Attachment" →
        ∀ m ∈ x.children, prettify_tag m.tag = "EmbeddedDocumentBinaryObject" →
        m.text ≠ none :=
      fun x hx => h x (List.mem_cons_of_mem _ hx)
    by_cases ha : prettify_tag c.tag = "Attachment"
    · have hstep : parsePdfStep acc c = exFold pdfEmbedStep acc c.children := by
        simp [parsePdfStep, ha]
      have hinner := pdfEmbed_fold c.children (h c (List.mem_cons_self _ _) ha) acc
      simp only [exFold, hstep, hinner]
      rw [ih hcs]
      cases hl : lastEmbedIn cs with
      | some r => simp [lastEmbedIn, hl]
      | none =>
        cases hl2 : lastEmbOfAttachment c.children with
        | some m => simp [lastEmbedIn, hl, ha, hl2]
        | none => simp [lastEmbedIn, hl, ha, hl2]
    · have hstep : parsePdfStep acc c = .ok acc := by simp [parsePdfStep, ha]
      simp only [exFold, hstep]
      rw [ih hcs]
      cases hl : lastEmbedIn cs with
      | some r => simp [lastEmbedIn, hl]
      | none => simp [lastEmbedIn, hl, ha]

/-- C8 counterexample: an embedded binary object whose text is whitespace
only yields attachment None, not the (empty) base64 encoding of the
stripped text that the claim, read literally, promises. -/
theorem pdf_attachment_ws_counterexample :
    parsePdfDocument pdfWsDoc = .ok .vnone ∧
    Val.vnone ≠ .vstr (b64encode (utf8Bytes (pyStrip "  \n"))) :=
  ⟨rfl, fun h => Val.noConfusion h⟩

/-- C8 (amended): for every AdditionalDocumentReference element whose
embedded-binary-object descendants all carry text, the attachment is the
base64 encoding of the UTF-8 bytes of the (last) embedded object's text
with surrounding whitespace stripped, except that an empty stripped text
yields None; and with no embedded object the attachment is None. -/
theorem pdf_attachment (x : Elem)
    (h : ∀ c ∈ x.children, prettify_tag c.tag = "Attachment" →
         ∀ m ∈ c.children, prettify_tag m.tag = "EmbeddedDocumentBinaryObject" →
         m.text ≠ none) :
    parsePdfDocument x = .ok (pdfExpected x) := by
  unfold parsePdfDocument pdfExpected
  rw [pdf_fold x.children h ""]
  cases hl : lastEmbedIn x.children with
  | none => simp
  | some m =>
    by_cases hb : b64encode (utf8Bytes (pyStrip (m.text.getD ""))) = "" <;> simp [hb]

theorem pdf_attachment_witness :
    parsePdfDocument pdfOkDoc = .ok (pdfExpected pdfOkDoc) ∧
    pdfExpected pdfOkDoc = .vstr "QUI9PQ==" :=
  ⟨pdf_attachment pdfOkDoc (by decide), rfl⟩

/-- C5: whenever the raw accumulated map carries a PaymentMeans dict whose
PaymentID is the string s, the projected header's payment_model is the
first 4 characters of s and its payment_reference is the remainder of s
with leading whitespace removed; when the PaymentID is None or the
PaymentMeans block is absent, both derived fields are None. -/
theorem payment_model_reference_split :
    (∀ (result pm : List (String × Val)) (s : String),
      dlookup result "PaymentMeans" = some (.vdict pm) →
      dlookup pm "PaymentID" = some (.vstr s) →
      exOk (postHeader result) = true →
      postHeaderField result "payment_model" = some (.vstr ⟨s.data.take 4⟩) ∧
      postHeaderField result "payment_reference" =
        some (.vstr ⟨(s.data.drop 4).dropWhile isPyWs⟩)) ∧
    (∀ (result pm : List (String × Val)),
      dlookup result "PaymentMeans" = some (.vdict pm) →
      dlookup pm "PaymentID" = none →
      exOk (postHeader result) = true →
      postHeaderField result "payment_model" = some .vnone ∧
      postHeaderField result "payment_reference" = some .vnone) ∧
    (∀ result : List (String × Val),
      dlookup result "PaymentMeans" = none →
      exOk (postHeader result) = true →
      postHeaderField result "payment_model" = some .vnone ∧
      postHeaderField result "payment_reference" = some .vnone) := by
  refine ⟨?_, ?_, ?_⟩
  · intro result pm s hpm hpid hok
    have hg : g2 result "PaymentMeans" "PaymentID" = .ok (.vstr s) := by
      simp [g2, dgetD, hpm, Val.pyGet, Val.pyGetD, hpid]
    exact postHeader_payment result (.vstr s) _ _ hg rfl hok
  · intro result pm hpm hpid hok
    have hg : g2 result "PaymentMeans" "PaymentID" = .ok .vnone := by
      simp [g2, dgetD, hpm, Val.pyGet, Val.pyGetD, hpid]
    exact postHeader_payment result .vnone _ _ hg rfl hok
  · intro result hpm hok
    have hg : g2 result "PaymentMeans" "PaymentID" = .ok .vnone := by
      simp [g2, dgetD, hpm, Val.pyGet, Val.pyGetD, dlookup]
    exact postHeader_payment result .vnone _ _ hg rfl hok

theorem payment_model_reference_split_witness :
    postHeaderField [("PaymentMeans", .vdict [("PaymentID", .vstr "HR02 3")])]
      "payment_model" = some (.vstr "HR02") ∧
    postHeaderField [("PaymentMeans", .vdict [("PaymentID", .vstr "HR02 3")])]
      "payment_reference" = some (.vstr "3") ∧
    postHeaderField [("PaymentMeans", .vdict [])] "payment_model" = some .vnone :=
  ⟨(payment_model_reference_split.1 [("PaymentMeans", .vdict [("PaymentID", .vstr "HR02 3")])]
      [("PaymentID", .vstr "HR02 3")] "HR02 3" rfl rfl rfl).1,
   (payment_model_reference_split.1 [("PaymentMeans", .vdict [("PaymentID", .vstr "HR02 3")])]
      [("PaymentID", .vstr "HR02 3")] "HR02 3" rfl rfl rfl).2,
   (payment_model_reference_split.2.1 [("PaymentMeans", .vdict [])] [] rfl rfl rfl).1⟩

/-- C10: a raw payment id shorter than 4 characters becomes the whole id
as payment_model and the empty string (not None) as payment_reference. -/
theorem payment_model_short_id (result pm : List (String × Val)) (s : String)
    (hpm : dlookup result "PaymentMeans" = some (.vdict pm))
    (hpid : dlookup pm "PaymentID" = some (.vstr s))
    (hlen : s.data.length < 4)
    (hok : exOk (postHeader result) = true) :
    postHeaderField result "payment_model" = some (.vstr s) ∧
    postHeaderField result "payment_reference" = some (.vstr "") := by
  have hg : g2 result "PaymentMeans" "PaymentID" = .ok (.vstr s) := by
    simp [g2, dgetD, hpm, Val.pyGet, Val.pyGetD, hpid]
  have h := postHeader_payment result (.vstr s) _ _ hg rfl hok
  constructor
  · have h1 := h.1
    rw [List.take_of_length_le (Nat.le_of_lt hlen)] at h1
    exact h1
  · have h2 := h.2
    rw [List.drop_eq_nil_of_le (Nat.le_of_lt hlen)] at h2
    exact h2

theorem payment_model_short_id_witness :
    ("AB" : String).data.length < 4 ∧
    postHeaderField [("PaymentMeans", .vdict [("PaymentID", .vstr "AB")])]
      "payment_model" = some (.vstr "AB") ∧
    postHeaderField [("PaymentMeans", .vdict [("PaymentID", .vstr "AB")])]
      "payment_reference" = some (.vstr "") :=
  ⟨by decide,
   (payment_model_short_id [("PaymentMeans", .vdict [("PaymentID", .vstr "AB")])]
      [("PaymentID", .vstr "AB")] "AB" rfl rfl (by decide) rfl).1,
   (payment_model_short_id [("PaymentMeans", .vdict [("PaymentID", .vstr "AB")])]
      [("PaymentID", .vstr "AB")] "AB" rfl rfl (by decide) rfl).2⟩

theorem prettify_tag_idem_witness :
    noBrace (prettify_tag
      "\x7burn:oasis:names:specification:ubl:schema:xsd:CommonAggregateComponents-2\x7dPartyName") = true ∧
    prettify_tag (prettify_tag
      "\x7burn:oasis:names:specification:ubl:schema:xsd:CommonAggregateComponents-2\x7dPartyName") =
    prettify_tag
      "\x7burn:oasis:names:specification:ubl:schema:xsd:CommonAggregateComponents-2\x7dPartyName" :=
  ⟨by decide, prettify_tag_idem _ (by decide)⟩

end EdiInvoice
